import Mathlib

/-!
Verification of the request-resolution and data-orchestration engine of the
vibb file-based web server (fetch_page.js, fetch_data.js, handle_post.js,
render_page.js, server.js) against its natural-language specification.

The JavaScript source is shallowly embedded: the page tree and the working
directory are a finite tree of named entries, `Deno.stat`/`Deno.readDir`/
`Deno.readTextFile` become lookups in that tree (with an injectable
read-failure channel, since a read can fail after a successful stat),
YAML values become the `JVal` tree, JavaScript objects become association
lists with object-spread update semantics, exceptions become `Except`,
and the external collaborators (Handlebars template expansion, the YAML
parser, the JSON parser, the strategy handlers) become injected functions,
mirroring how the source receives them as injected modules.
-/

namespace Vibb

/-- A JSON/YAML-style value, the universe of parsed documents, request
contexts and strategy results (`undefined` is represented separately as
`Option.none` where the source distinguishes it). -/
inductive JVal where
  | null : JVal
  | bool : Bool → JVal
  | num : Int → JVal
  | str : String → JVal
  | arr : List JVal → JVal
  | obj : List (String × JVal) → JVal
deriving Repr

/-- First-match association-list lookup: JavaScript property access on a
parsed object, and registry lookup `dataStrategies[type]`. -/
def getField : List (String × α) → String → Option α
  | [], _ => none
  | (k, v) :: rest, key => if k = key then some v else getField rest key

/-- JavaScript object update `obj[k] = v` / spread collision semantics:
overwrite in place when the key exists, append otherwise. -/
def setKey : List (String × α) → String → α → List (String × α)
  | [], k, v => [(k, v)]
  | (k', v') :: rest, k, v =>
      if k' = k then (k, v) :: rest else (k', v') :: setKey rest k v

/-- JavaScript object spread `{...a, ...b}`: fold the fields of `b` into `a`
with overwrite-in-place-or-append semantics. -/
def spreadObj (a b : List (String × α)) : List (String × α) :=
  b.foldl (fun acc kv => setKey acc kv.1 kv.2) a

/-- A JavaScript object literal built from spread parts, starting from a
fresh empty object: `{...p1, ...p2, ...}`. -/
def objLit (parts : List (List (String × α))) : List (String × α) :=
  parts.foldl spreadObj []

/-- The keys of an association list, in order. -/
def keys (l : List (String × α)) : List String := l.map Prod.fst

/-- `delete`-all / rest-destructuring `const { k, ...rest } = o`: drop the
field named `k` (parsed objects hold each key at most once). -/
def removeKey (l : List (String × α)) (k : String) : List (String × α) :=
  l.filter (fun kv => kv.1 != k)

/-- Last-match association-list lookup: the value the key ends up with when
the list is poured into a fresh object left to right. -/
def lastField (l : List (String × α)) (key : String) : Option α :=
  getField l.reverse key

/-- JavaScript truthiness of a parsed value (`NaN` is outside the model). -/
def truthy : JVal → Bool
  | .null => false
  | .bool b => b
  | .num n => n != 0
  | .str s => s != ""
  | .arr _ => true
  | .obj _ => true

/-- Truthiness of a possibly-`undefined` value (`none` = `undefined`). -/
def truthyOpt : Option JVal → Bool
  | none => false
  | some v => truthy v

/-- The fields contributed when a value is spread into an object literal:
objects give their fields, arrays and strings their indexed elements,
primitives nothing. -/
def spreadPairs : JVal → List (String × JVal)
  | .obj fs => fs
  | .arr vs => vs.enum.map (fun p => (toString p.1, p.2))
  | .str s => s.toList.enum.map (fun p => (toString p.1, JVal.str (String.mk [p.2])))
  | _ => []

/-! ### The filesystem model

A directory tree rooted at the server's working directory.  `Deno.readDir`
never lists `.` or `..` entries, so those names occur only in path strings,
where POSIX resolution interprets them. -/

/-- A file tree: content files and directories of named entries. -/
inductive FS where
  | file : String → FS
  | dir : List (String × FS) → FS
deriving Repr

/-- Whether an entry is a directory (`entry.isDirectory`). -/
def isDir : FS → Bool
  | .file _ => false
  | .dir _ => true

/-- POSIX-style path resolution from a base tree, tracking the parent chain
so `..` steps up (empty segments and `.` are skipped, and a `..` that would
climb above the modeled working directory fails). -/
def resolveFrom : List String → FS → List FS → Option FS
  | [], fs, _ => some fs
  | s :: rest, fs, parents =>
      if s == "" || s == "." then resolveFrom rest fs parents
      else if s == ".." then
        match parents with
        | [] => none
        | p :: ps => resolveFrom rest p ps
      else
        match fs with
        | .file _ => none
        | .dir es =>
            match getField es s with
            | none => none
            | some child => resolveFrom rest child (fs :: parents)

/-- `Deno.stat(path)` succeeds: the path resolves to a file or directory. -/
def statOk (cwd : FS) (raw : List String) : Bool :=
  (resolveFrom raw cwd []).isSome

/-- A content file (not a directory) exists at the path. -/
def fileAt (cwd : FS) (raw : List String) : Bool :=
  match resolveFrom raw cwd [] with
  | some (.file _) => true
  | _ => false

/-- `Deno.readDir(path)`: the entry list when the path resolves to a
directory, `none` when it is missing or a file (the source catches the
throw and treats it as an absent directory). -/
def readDirAt (cwd : FS) (raw : List String) : Option (List (String × FS)) :=
  match resolveFrom raw cwd [] with
  | some (.dir es) => some es
  | _ => none

/-- Pure segment normalization of a raw path against the working directory:
where a path string points after resolving `.`, `..` and empty segments.
Used to state where a resolved page location actually lives. -/
def normAux : List String → List String → Option (List String)
  | [], stack => some stack.reverse
  | s :: rest, stack =>
      if s == "" || s == "." then normAux rest stack
      else if s == ".." then
        match stack with
        | [] => none
        | _ :: stack' => normAux rest stack'
      else normAux rest (s :: stack)

/-- The normalized location a raw path denotes, relative to the working
directory. -/
def normalizeLoc (raw : List String) : Option (List String) := normAux raw []

/-- A resolved path stays inside the page root `./pages`. -/
def withinPages (raw : List String) : Bool :=
  match normalizeLoc raw with
  | some ("pages" :: _) => true
  | _ => false

/-! ### The path resolver (fetch_page.js: findPageWithParams / searchPath) -/

/-- A resolved page: the path of its `index.html` (as the segments of the
path string the source builds) and the extracted URL parameters. -/
structure PageMatch where
  pagePath : List String
  params : List (String × String)
deriving Repr, DecidableEq

/-- Split a character list on `/` (auxiliary for `splitPath`). -/
def splitSlashAux : List Char → List Char → List String
  | [], acc => [String.mk acc.reverse]
  | c :: rest, acc =>
      if c == '/' then String.mk acc.reverse :: splitSlashAux rest []
      else splitSlashAux rest (c :: acc)

/-- `path.split("/")` (`"" ↦ [""]`, empty segments kept). -/
def splitPath (path : String) : List String := splitSlashAux path.toList []

/-- The segments of the exact-match candidate string
`./pages/${path}/index.html`. -/
def exactSegs (path : String) : List String :=
  "." :: "pages" :: (splitPath path ++ ["index.html"])

/-- `entry.name.startsWith("[") && entry.name.endsWith("]")`. -/
def isBracket (name : String) : Bool :=
  name.toList.head? == some '[' && name.toList.getLast? == some ']'

/-- `entry.name.slice(1, -1)`: the parameter name inside the brackets. -/
def bracketName (name : String) : String :=
  String.mk ((name.toList.drop 1).dropLast)

/-- `{ ...params, [paramName]: segment }`: bind a parameter, overwriting an
earlier binding of the same name in place. -/
def setParam (params : List (String × String)) (k v : String) :
    List (String × String) :=
  setKey params k v

/-- The first defined result produced by `f` along the list: the
`for ... { if (result) return result }` loop over directory entries. -/
def firstSome (f : α → Option β) : List α → Option β
  | [] => none
  | a :: rest =>
      match f a with
      | some b => some b
      | none => firstSome f rest

/-- The recursive parameterized search `searchPath(segments, currentPath,
params)`: with no segments left, succeed iff `currentPath/index.html`
stats; otherwise list the current directory and, in listing order, recurse
into a subdirectory literally named the segment or into a
bracket-parameter subdirectory binding the segment's value. -/
def searchPath (cwd : FS) : List String → List String →
    List (String × String) → Option PageMatch
  | [], curPath, params =>
      if statOk cwd (curPath ++ ["index.html"]) then
        some ⟨curPath ++ ["index.html"], params⟩
      else none
  | s :: rest, curPath, params =>
      match readDirAt cwd curPath with
      | none => none
      | some entries =>
          firstSome (fun entry =>
            if !(isDir entry.2) then none
            else if entry.1 == s then
              searchPath cwd rest (curPath ++ [entry.1]) params
            else if isBracket entry.1 then
              searchPath cwd rest (curPath ++ [entry.1])
                (setParam params (bracketName entry.1) s)
            else none) entries

/-- `findPageWithParams(path)`: try the exact joined candidate first, then
the recursive parameterized search from `./pages`. -/
def findPageWithParams (cwd : FS) (path : String) : Option PageMatch :=
  let pathSegments := (splitPath path).filter (fun s => s != "")
  if statOk cwd (exactSegs path) then some ⟨exactSegs path, []⟩
  else searchPath cwd pathSegments [".", "pages"] []

/-- The per-entry body of the search loop, named so that statements can
speak about individual entries (definitionally the lambda inside
`searchPath`). -/
def entryCandidate (cwd : FS) (s : String) (rest : List String)
    (curPath : List String) (params : List (String × String))
    (entry : String × FS) : Option PageMatch :=
  if !(isDir entry.2) then none
  else if entry.1 == s then searchPath cwd rest (curPath ++ [entry.1]) params
  else if isBracket entry.1 then
    searchPath cwd rest (curPath ++ [entry.1])
      (setParam params (bracketName entry.1) s)
  else none

/-! ### The strategy dispatcher and configuration pipeline (fetch_data.js,
handle_post.js) -/

/-- The outcome of invoking a strategy handler: it can throw, return a
value, or return nothing (`undefined`, modeled as `ret none`). -/
inductive StratOutcome where
  | throws : String → StratOutcome
  | ret : Option JVal → StratOutcome

/-- A strategy handler: `(config, context) → result`, the shape of the
entries of the injected `dataStrategies` registry. -/
abbrev Strategy := JVal → JVal → StratOutcome

/-- `const { type } = config` followed by reading `type` as a registry key:
destructuring `null` throws; a missing or non-string `type` denotes no
registered key (non-string `type` values stringify to names not used by
any registry in this development). -/
def typeFieldOf : JVal → Except String (Option String)
  | .null => .error "Cannot destructure property type of null"
  | .obj fs => .ok (match getField fs "type" with
      | some (.str s) => some s
      | _ => none)
  | _ => .ok none

/-- `config.key` as a collected-result key: present iff it is a truthy
string (non-string key values are outside the key universe of this model;
no claim exercises them). -/
def keyOf : JVal → Option String
  | .obj fs => match getField fs "key" with
      | some (.str s) => if s = "" then none else some s
      | _ => none
  | _ => none

/-- JavaScript member access `v.name` on a parsed value: throws on `null`,
gives the field of an object, `undefined` otherwise. -/
def getMember : JVal → String → Except String (Option JVal)
  | .null, name => .error ("Cannot read properties of null (reading " ++ name ++ ")")
  | .obj fs, name => .ok (getField fs name)
  | _, _ => .ok none

/-- `executeFetchStrategy(config, context, dataStrategies, log)`: look the
type up in the registry — missing type logs a warning and returns
`undefined`; a handler failure is caught, logged and becomes `undefined`.
Only the initial destructuring of a `null` config escapes. -/
def executeFetchStrategy (strategies : List (String × Strategy))
    (config ctxObj : JVal) : Except String (Option JVal) :=
  match typeFieldOf config with
  | .error e => .error e
  | .ok t? =>
      match t?.bind (getField strategies) with
      | none => .ok none
      | some strat =>
          match strat config ctxObj with
          | .throws _ => .ok none
          | .ret v => .ok v

/-- `if (config.key && result !== undefined) results[config.key] = result`. -/
def collectResult (results : List (String × JVal)) (config : JVal)
    (r : Option JVal) : List (String × JVal) :=
  match keyOf config, r with
  | some k, some v => setKey results k v
  | _, _ => results

/-- The `for (const config of fetchConfig)` loop of
`fetchDataStrategies`, accumulating collected results. -/
def runConfigs (strategies : List (String × Strategy)) (ctxObj : JVal) :
    List JVal → List (String × JVal) → Except String (List (String × JVal))
  | [], results => .ok results
  | c :: rest, results =>
      match executeFetchStrategy strategies c ctxObj with
      | .error e => .error e
      | .ok r => runConfigs strategies ctxObj rest (collectResult results c r)

/-- `fetchDataStrategies(fetchConfig, context, dataStrategies, log)`: an
array of configs is executed in declared order, a single object config is
executed alone, any other (truthy) shape contributes nothing. -/
def fetchDataStrategies (strategies : List (String × Strategy))
    (fetchConfig ctxObj : JVal) : Except String (List (String × JVal)) :=
  if truthy fetchConfig then
    match fetchConfig with
    | .arr configs => runConfigs strategies ctxObj configs []
    | .obj _ =>
        match executeFetchStrategy strategies fetchConfig ctxObj with
        | .error e => .error e
        | .ok r => .ok (collectResult [] fetchConfig r)
    | _ => .ok []
  else .ok []

/-- `executeSendStrategy(config, context, dataStrategies, log)` — the write
flow's dispatcher, duplicated in the source with the same logic as
`executeFetchStrategy`. -/
def executeSendStrategy (strategies : List (String × Strategy))
    (config ctxObj : JVal) : Except String (Option JVal) :=
  match typeFieldOf config with
  | .error e => .error e
  | .ok t? =>
      match t?.bind (getField strategies) with
      | none => .ok none
      | some strat =>
          match strat config ctxObj with
          | .throws _ => .ok none
          | .ret v => .ok v

/-- The `for (const config of sendConfig)` loop of `sendDataStrategies`. -/
def runSendConfigs (strategies : List (String × Strategy)) (ctxObj : JVal) :
    List JVal → List (String × JVal) → Except String (List (String × JVal))
  | [], results => .ok results
  | c :: rest, results =>
      match executeSendStrategy strategies c ctxObj with
      | .error e => .error e
      | .ok r => runSendConfigs strategies ctxObj rest (collectResult results c r)

/-- `sendDataStrategies(sendConfig, context, dataStrategies, log)`. -/
def sendDataStrategies (strategies : List (String × Strategy))
    (sendConfig ctxObj : JVal) : Except String (List (String × JVal)) :=
  if truthy sendConfig then
    match sendConfig with
    | .arr configs => runSendConfigs strategies ctxObj configs []
    | .obj _ =>
        match executeSendStrategy strategies sendConfig ctxObj with
        | .error e => .error e
        | .ok r => .ok (collectResult [] sendConfig r)
    | _ => .ok []
  else .ok []

/-- The external template/parse collaborators the pipeline calls:
`handlebars.compile(text)(context)` and the YAML `parse`, both of which
can throw. -/
structure TemplateEnv where
  compileRun : String → JVal → Except String String
  parseYaml : String → Except String JVal

/-- The read flow's context fields `{ params, query }`. -/
def ctxRead (params query : JVal) : List (String × JVal) :=
  [("params", params), ("query", query)]

/-- The write flow's context fields `{ params, query, formData }`. -/
def ctxWrite (params query formData : JVal) : List (String × JVal) :=
  [("params", params), ("query", query), ("formData", formData)]

/-- `fetchData({yamlContent, params, query, dataStrategies, log})`: absent
or empty document returns just the context; otherwise template-expand,
parse, run `fetch_data` strategies when that key is truthy, and merge
`{ ...restYamlData, ...fetchedData, params, query }`.  Every throw inside
the body (expansion, parse, reading a member of a `null` document,
destructuring a `null` config) is caught and degrades to the context. -/
def fetchData (tmpl : TemplateEnv) (strategies : List (String × Strategy))
    (yamlContent : Option String) (params query : JVal) :
    List (String × JVal) :=
  match yamlContent with
  | none => ctxRead params query
  | some yc =>
      if yc == "" then ctxRead params query
      else
        match tmpl.compileRun yc (.obj (ctxRead params query)) with
        | .error _ => ctxRead params query
        | .ok processed =>
            match tmpl.parseYaml processed with
            | .error _ => ctxRead params query
            | .ok yamlData =>
                match getMember yamlData "fetch_data" with
                | .error _ => ctxRead params query
                | .ok fd =>
                    if truthyOpt fd then
                      match fetchDataStrategies strategies (fd.getD .null)
                          (.obj (ctxRead params query)) with
                      | .error _ => ctxRead params query
                      | .ok fetched =>
                          objLit [removeKey (spreadPairs yamlData) "fetch_data",
                            fetched, ctxRead params query]
                    else
                      objLit [spreadPairs yamlData, ctxRead params query]

/-- `handlePost({yamlContent, params, query, formData, dataStrategies,
log})` — the write flow's pipeline, with `send_data` as the reserved key
and `formData` joining the context. -/
def handlePost (tmpl : TemplateEnv) (strategies : List (String × Strategy))
    (yamlContent : Option String) (params query formData : JVal) :
    List (String × JVal) :=
  match yamlContent with
  | none => ctxWrite params query formData
  | some yc =>
      if yc == "" then ctxWrite params query formData
      else
        match tmpl.compileRun yc (.obj (ctxWrite params query formData)) with
        | .error _ => ctxWrite params query formData
        | .ok processed =>
            match tmpl.parseYaml processed with
            | .error _ => ctxWrite params query formData
            | .ok yamlData =>
                match getMember yamlData "send_data" with
                | .error _ => ctxWrite params query formData
                | .ok sd =>
                    if truthyOpt sd then
                      match sendDataStrategies strategies (sd.getD .null)
                          (.obj (ctxWrite params query formData)) with
                      | .error _ => ctxWrite params query formData
                      | .ok sent =>
                          objLit [removeKey (spreadPairs yamlData) "send_data",
                            sent, ctxWrite params query formData]
                    else
                      objLit [spreadPairs yamlData, ctxWrite params query formData]

/-! ### The request orchestrator (fetch_page.js: fetchPage; render_page.js:
renderPage; handle_post.js: isPostAllowed / loadPostYaml / parseFormData /
handlePostRequest) -/

/-- The body of an HTTP response: plain text, or the JSON serialization of
a data object (`JSON.stringify` kept abstract as the structured payload). -/
inductive RBody where
  | text : String → RBody
  | json : List (String × JVal) → RBody
deriving Repr

/-- An HTTP response (a constructed `Response`; status defaults to 200). -/
structure HResponse where
  status : Nat
  body : RBody
deriving Repr

/-- A multipart form field: a text field, or a file field (stored as its
filename and declared type, content discarded). -/
inductive FormValue where
  | fstr : String → FormValue
  | ffile : String → String → FormValue

/-- An inbound HTTP request as the handler consumes it: the content-type
header, the body text (`await req.text()`), and the outcome of
`await req.formData()` — which rejects on a malformed multipart body. -/
structure HttpRequest where
  contentType : Option String
  textBody : String
  formDataResult : Except String (List (String × FormValue))

/-- The environment a request runs against: the file tree, file reading
(which can fail even where `stat` succeeded), and the injected external
collaborators — template engine, YAML/JSON parsers, URL-decoding, and the
strategy registry. -/
structure ServerEnv where
  fs : FS
  readTextFile : List String → Except String String
  tmpl : TemplateEnv
  strategies : List (String × Strategy)
  renderBody : String → List (String × JVal) → Except String String
  renderLayout : List (String × JVal) → Except String String
  parseJson : String → Except String JVal
  parseUrlEncoded : String → List (String × String)

/-- `pagePath.replace("/index.html", "")`: drop the first `index.html`
segment (every resolver-produced page path ends in one; occurrences inside
longer segment names are outside this model). -/
def pageDirOf : List String → List String
  | [] => []
  | s :: rest => if s == "index.html" then rest else s :: pageDirOf rest

/-- The result of `fetchPage`: not found, or the page content with the
optional `get.yaml` text and the extracted parameters. -/
inductive PageResult where
  | notFound : PageResult
  | found : String → Option String → List (String × String) → PageResult

/-- `fetchPage(path, log)`: resolve, read the page content (a read failure
is caught and degrades to not-found), and try to read `get.yaml` beside it
(a failure there degrades to no YAML). -/
def fetchPage (env : ServerEnv) (path : String) : PageResult :=
  match findPageWithParams env.fs path with
  | none => .notFound
  | some m =>
      match env.readTextFile m.pagePath with
      | .error _ => .notFound
      | .ok pageContent =>
          let yamlContent :=
            match env.readTextFile (pageDirOf m.pagePath ++ ["get.yaml"]) with
            | .ok y => some y
            | .error _ => none
          .found pageContent yamlContent m.params

/-- `pageContent.trim().toLowerCase().startsWith("<!doctype html")`. -/
def isPureHtml (pageContent : String) : Bool :=
  let trimmed := (pageContent.toList.dropWhile Char.isWhitespace).reverse
    |>.dropWhile Char.isWhitespace |>.reverse
  List.isPrefixOf "<!doctype html".toList (trimmed.map Char.toLower)

/-- `path ? path.charAt(0).toUpperCase() + path.slice(1) : "Home"`. -/
def titleOf (path : String) : String :=
  match path.toList with
  | [] => "Home"
  | c :: rest => String.mk (c.toUpper :: rest)

/-- The params object `{ userId: "123", ... }` as a context value. -/
def paramsToJVal (params : List (String × String)) : JVal :=
  .obj (params.map (fun kv => (kv.1, JVal.str kv.2)))

/-- The data `renderPage` feeds the templates: run `fetchData` when a
truthy `yamlContent` was found, else just `{ params, query }`. -/
def renderDataOf (env : ServerEnv) (yamlContent : Option String)
    (params : List (String × String)) (query : JVal) :
    List (String × JVal) :=
  match yamlContent with
  | some y =>
      if y == "" then ctxRead (paramsToJVal params) query
      else fetchData env.tmpl env.strategies (some y) (paramsToJVal params) query
  | none => ctxRead (paramsToJVal params) query

/-- `renderPage(path, query, log, dataStrategies)` — the read flow: 404
when the page is not found, pure-HTML pages served verbatim, otherwise the
body template then the layout template are rendered; a throw from either
rendering step is caught by the surrounding try and becomes a 500 whose
body carries the failure message. -/
def renderPage (env : ServerEnv) (path : String) (query : JVal) : HResponse :=
  match fetchPage env path with
  | .notFound => ⟨404, .text "Page not found"⟩
  | .found pageContent yamlContent params =>
      let data := renderDataOf env yamlContent params query
      if isPureHtml pageContent then ⟨200, .text pageContent⟩
      else
        match env.renderBody pageContent data with
        | .error msg => ⟨500, .text ("Internal server error: " ++ msg)⟩
        | .ok renderedBody =>
            match env.renderLayout (objLit
                [[("title", JVal.str (titleOf path)),
                  ("body", JVal.str renderedBody)], data]) with
            | .error msg => ⟨500, .text ("Internal server error: " ++ msg)⟩
            | .ok html => ⟨200, .text html⟩

/-- Whether `needle` occurs contiguously inside the character list. -/
def hasInfixChars (needle : List Char) : List Char → Bool
  | [] => List.isPrefixOf needle []
  | c :: rest => List.isPrefixOf needle (c :: rest) || hasInfixChars needle rest

/-- `contentType?.includes(needle)` (`none` short-circuits to false). -/
def contentTypeIncludes (ct : Option String) (needle : String) : Bool :=
  match ct with
  | none => false
  | some s => hasInfixChars needle.toList s.toList

/-- One multipart field as stored by `parseFormData`: strings kept, files
reduced to `{ filename, type }`. -/
def formValueToJVal : FormValue → JVal
  | .fstr s => .str s
  | .ffile name ftype => .obj [("filename", .str name), ("type", .str ftype)]

/-- `parseFormData(req)`: JSON bodies are parsed with a catch (malformed →
empty map), URL-encoded bodies are decoded pairwise, multipart bodies use
`req.formData()` **without** a catch — its rejection escapes — and any
other or missing content type yields an empty map. -/
def parseFormData (env : ServerEnv) (req : HttpRequest) : Except String JVal :=
  if contentTypeIncludes req.contentType "application/json" then
    .ok (match env.parseJson req.textBody with
        | .ok v => v
        | .error _ => .obj [])
  else if contentTypeIncludes req.contentType "application/x-www-form-urlencoded" then
    .ok (.obj ((env.parseUrlEncoded req.textBody).foldl
        (fun acc kv => setKey acc kv.1 (JVal.str kv.2)) []))
  else if contentTypeIncludes req.contentType "multipart/form-data" then
    match req.formDataResult with
    | .error e => .error e
    | .ok fields =>
        .ok (.obj (fields.foldl
            (fun acc kv => setKey acc kv.1 (formValueToJVal kv.2)) []))
  else .ok (.obj [])

/-- `isPostAllowed(pagePath, requestPath)`: `post.yaml` stats in the
matched page's directory. -/
def isPostAllowed (env : ServerEnv) (pagePath : List String) : Bool :=
  statOk env.fs (pageDirOf pagePath ++ ["post.yaml"])

/-- `loadPostYaml(pagePath)`: the text of `post.yaml`, `null` when the
read fails. -/
def loadPostYaml (env : ServerEnv) (pagePath : List String) : Option String :=
  match env.readTextFile (pageDirOf pagePath ++ ["post.yaml"]) with
  | .ok s => some s
  | .error _ => none

/-- `handlePostRequest(path, req, log, dataStrategies)` — the write flow:
404 when unresolved, 405 when `post.yaml` is absent, then the body is
decoded (an escaping decode rejection propagates out as `.error` — the
handler has no catch), the pipeline runs, and the result is returned as a
200 JSON response. -/
def handlePostRequest (env : ServerEnv) (path : String) (req : HttpRequest) :
    Except String HResponse :=
  match findPageWithParams env.fs path with
  | none => .ok ⟨404, .text "Page not found"⟩
  | some m =>
      if isPostAllowed env m.pagePath then
        match parseFormData env req with
        | .error e => .error e
        | .ok formData =>
            let data :=
              match loadPostYaml env m.pagePath with
              | some y =>
                  if y == "" then ctxWrite (paramsToJVal m.params) (.obj []) formData
                  else handlePost env.tmpl env.strategies (some y)
                    (paramsToJVal m.params) (.obj []) formData
              | none => ctxWrite (paramsToJVal m.params) (.obj []) formData
            .ok ⟨200, .json data⟩
      else .ok ⟨405, .text "Method not allowed"⟩

/-- Whether an orchestrator outcome is a 200 response carrying JSON. -/
def isJson200 : Except String HResponse → Bool
  | .ok ⟨200, .json _⟩ => true
  | _ => false

/-- Right-biased choice: the first defined of two optional values.  Used to
state lookup semantics of merges. -/
def orFirst : Option α → Option α → Option α
  | some v, _ => some v
  | none, b => b

/-! ### Concrete fixtures used by counterexamples and witnesses -/

/-- A working directory holding the page root plus a sibling directory
`outside` that itself contains an `index.html` — the layout that exposes
the traversal hole of the exact-match fast path. -/
def fsTraversal : FS := .dir [
  ("pages", .dir [("home", .dir [("index.html", .file "H")])]),
  ("outside", .dir [("index.html", .file "SECRET")])]

/-- A page tree whose listing puts a bracket-parameter directory before the
literal directory at the same level; both lead to terminal successes for
the path `a/b`, through `[p]/b` and through `a/[q]`. -/
def fsBracketFirst : FS := .dir [("pages", .dir [
  ("[p]", .dir [("b", .dir [("index.html", .file "B")])]),
  ("a", .dir [("[q]", .dir [("index.html", .file "A")])])])]

/-- A page subtree reached through the literal directory `a`. -/
def subLitA : FS := .dir [("b", .dir [("index.html", .file "B")])]

/-- A competing page subtree reached through the bracket directory `[p]`. -/
def subLitP : FS := .dir [("b", .dir [("index.html", .file "P")])]

/-- A page tree whose listing puts the literal directory first. -/
def fsLiteralFirst : FS := .dir [("pages", .dir [("a", subLitA), ("[p]", subLitP)])]

/-- A page tree with an exact page `a` and a competing parameter page. -/
def fsExact : FS := .dir [("pages", .dir [
  ("[id]", .dir [("index.html", .file "P")]),
  ("a", .dir [("index.html", .file "E")])])]

/-- A page tree reusing the same parameter name at two depths:
`pages/[id]/x/[id]/index.html`. -/
def fsDupParam : FS := .dir [("pages", .dir [("[id]", .dir [("x", .dir [
  ("[id]", .dir [("index.html", .file "F")])])])])]

/-- A template environment whose parser maps the document `fetch_data:` to
the tree the YAML library produces for it, `{ fetch_data: null }` with a
sibling field (expansion is the identity). -/
def tmplFalsyReserved : TemplateEnv :=
  { compileRun := fun s _ => .ok s,
    parseYaml := fun s =>
      if s == "fetch_data:" then .ok (.obj [("fetch_data", .null), ("a", .str "1")])
      else if s == "send_data:" then .ok (.obj [("send_data", .null), ("a", .str "1")])
      else .error "unexpected document" }

/-- An operation of type `t` declaring the key `k`. -/
def cfgOp1 : JVal := .obj [("type", .str "t"), ("key", .str "k")]

/-- An operation of type `t2` declaring the same key `k`. -/
def cfgOp2 : JVal := .obj [("type", .str "t2"), ("key", .str "k")]

/-- A parsed read-config document: a `params` field (to be shadowed by the
context), a `k` field (to be overridden by an operation), and two
`fetch_data` operations declaring the same key. -/
def fsMergeDoc : List (String × JVal) := [
  ("params", .str "shadowme"),
  ("k", .str "docval"),
  ("fetch_data", .arr [cfgOp1, cfgOp2])]

/-- A template environment whose document parses to `fsMergeDoc`. -/
def tmplMergeDoc : TemplateEnv :=
  { compileRun := fun s _ => .ok s,
    parseYaml := fun _ => .ok (.obj fsMergeDoc) }

/-- A parsed read-config document with no reserved key. -/
def fsPlainDoc : List (String × JVal) := [("params", .str "x"), ("a", .str "1")]

/-- A template environment whose document parses to `fsPlainDoc`. -/
def tmplPlainDoc : TemplateEnv :=
  { compileRun := fun s _ => .ok s,
    parseYaml := fun _ => .ok (.obj fsPlainDoc) }

/-- Two handlers returning distinct values, to observe collision order. -/
def stratsMerge : List (String × Strategy) :=
  [("t", fun _ _ => .ret (some (.str "v1"))),
   ("t2", fun _ _ => .ret (some (.str "v2")))]

/-- A parsed write-config document with one truthy `send_data` operation. -/
def fsSendDoc : List (String × JVal) := [("note", .str "n"), ("send_data", cfgOp1)]

/-- A write-side template environment whose document parses to `fsSendDoc`. -/
def tmplSendDoc : TemplateEnv :=
  { compileRun := fun s _ => .ok s,
    parseYaml := fun _ => .ok (.obj fsSendDoc) }

/-- A handler that always throws. -/
def boomStrat : Strategy := fun _ _ => .throws "handler failed"

/-- A handler that intentionally returns nothing (`undefined`). -/
def quietStrat : Strategy := fun _ _ => .ret none

/-- A handler that returns a value. -/
def valStrat : Strategy := fun _ _ => .ret (some (.str "v"))

/-- A registry exposing the three handler behaviours. -/
def stratsMixed : List (String × Strategy) :=
  [("boom", boomStrat), ("quiet", quietStrat), ("val", valStrat)]

/-- A template environment that always fails to expand. -/
def tmplExpandFails : TemplateEnv :=
  { compileRun := fun _ _ => .error "expansion failed",
    parseYaml := fun _ => .ok .null }

/-- A template environment that expands but always fails to parse. -/
def tmplParseFails : TemplateEnv :=
  { compileRun := fun s _ => .ok s,
    parseYaml := fun _ => .error "parse failed" }

/-- A server environment around a `form` page carrying a `post.yaml`,
whose YAML never parses — the write flow must still answer 200. -/
def envForm : ServerEnv :=
  { fs := .dir [("pages", .dir [("form", .dir [
      ("index.html", .file "F"), ("post.yaml", .file "post")])])],
    readTextFile := fun p =>
      if p == [".", "pages", "form", "post.yaml"] then .ok "postcfg"
      else if p == [".", "pages", "form", "index.html"] then .ok "F"
      else .error "enoent",
    tmpl := { compileRun := fun s _ => .ok s, parseYaml := fun _ => .error "bad yaml" },
    strategies := [],
    renderBody := fun _ _ => .ok "B",
    renderLayout := fun _ => .ok "L",
    parseJson := fun _ => .error "bad json",
    parseUrlEncoded := fun _ => [] }

/-- A multipart request whose body decoding rejects (e.g. a missing
boundary parameter). -/
def reqBadMultipart : HttpRequest :=
  { contentType := some "multipart/form-data", textBody := "",
    formDataResult := .error "Missing boundary" }

/-- A JSON request whose body does not parse. -/
def reqBadJson : HttpRequest :=
  { contentType := some "application/json", textBody := "invalid json",
    formDataResult := .ok [] }

/-- A server environment where the page `boom` resolves but every file
read fails — the content-body load failure scenario. -/
def envReadFails : ServerEnv :=
  { fs := .dir [("pages", .dir [("boom", .dir [("index.html", .file "X")])])],
    readTextFile := fun _ => .error "disk failure",
    tmpl := { compileRun := fun s _ => .ok s, parseYaml := fun _ => .error "e" },
    strategies := [],
    renderBody := fun _ _ => .error "template exploded",
    renderLayout := fun _ => .error "layout exploded",
    parseJson := fun _ => .error "e",
    parseUrlEncoded := fun _ => [] }

/-- Like `envReadFails` but the page content reads fine (and is not pure
HTML), so the failure happens in the rendering steps instead. -/
def envRenderFails : ServerEnv :=
  { envReadFails with readTextFile := (fun p =>
      if p == [".", "pages", "boom", "index.html"] then .ok "<h1>hi</h1>"
      else .error "enoent") }

/-- Like `envRenderFails` but only the layout rendering fails. -/
def envLayoutFails : ServerEnv :=
  { envRenderFails with renderBody := fun _ _ => .ok "rendered" }

/-! ### Association-list and merge lemmas -/

theorem orFirst_none_right (a : Option α) : orFirst a none = a := by
  cases a <;> rfl

theorem getField_setKey_self (l : List (String × α)) (k : String) (v : α) :
    getField (setKey l k v) k = some v := by
  induction l with
  | nil => simp [setKey, getField]
  | cons p rest ih =>
      obtain ⟨k', v'⟩ := p
      by_cases h : k' = k
      · simp [setKey, h, getField]
      · simp [setKey, h, getField, ih]

theorem getField_setKey_ne (l : List (String × α)) (k k' : String) (v : α)
    (h : k' ≠ k) : getField (setKey l k v) k' = getField l k' := by
  induction l with
  | nil => simp [setKey, getField, Ne.symm h]
  | cons p rest ih =>
      obtain ⟨k₁, v₁⟩ := p
      by_cases h₁ : k₁ = k
      · subst h₁; simp [setKey, getField, Ne.symm h]
      · simp [setKey, h₁, getField, ih]

theorem getField_append (l₁ l₂ : List (String × α)) (k : String) :
    getField (l₁ ++ l₂) k = orFirst (getField l₁ k) (getField l₂ k) := by
  induction l₁ with
  | nil => simp [getField, orFirst]
  | cons p rest ih =>
      by_cases h : p.1 = k
      · simp [getField, h, orFirst]
      · simp [getField, h, ih]

theorem lastField_nil (k : String) : lastField ([] : List (String × α)) k = none := rfl

theorem lastField_cons (p : String × α) (l : List (String × α)) (k : String) :
    lastField (p :: l) k =
      orFirst (lastField l k) (if p.1 = k then some p.2 else none) := by
  unfold lastField
  rw [List.reverse_cons, getField_append]
  by_cases h : p.1 = k <;> simp [getField, h]

theorem getField_spreadObj (a b : List (String × α)) (k : String) :
    getField (spreadObj a b) k = orFirst (lastField b k) (getField a k) := by
  induction b generalizing a with
  | nil => simp [spreadObj, lastField, getField, orFirst]
  | cons p rest ih =>
      have hstep : spreadObj a (p :: rest) = spreadObj (setKey a p.1 p.2) rest := rfl
      rw [hstep, ih, lastField_cons]
      cases hr : lastField rest k with
      | some v => simp [orFirst]
      | none =>
          simp only [orFirst]
          by_cases h : p.1 = k
          · subst h; simp [getField_setKey_self, orFirst]
          · simp [h, getField_setKey_ne a p.1 k p.2 (Ne.symm h), orFirst]

theorem getField_eq_none_iff (l : List (String × α)) (k : String) :
    getField l k = none ↔ k ∉ keys l := by
  induction l with
  | nil => simp [getField, keys]
  | cons p rest ih =>
      by_cases h : p.1 = k
      · simp [getField, h, keys]
      · simp [getField, h, keys, ih, Ne.symm h]

theorem keys_reverse (l : List (String × α)) : keys l.reverse = (keys l).reverse := by
  simp [keys]

theorem lastField_eq_none_iff (l : List (String × α)) (k : String) :
    lastField l k = none ↔ k ∉ keys l := by
  unfold lastField
  rw [getField_eq_none_iff, keys_reverse]
  simp

theorem lastField_eq_getField_of_nodup (l : List (String × α)) (k : String)
    (h : (keys l).Nodup) : lastField l k = getField l k := by
  induction l with
  | nil => rfl
  | cons p rest ih =>
      rw [lastField_cons]
      simp only [keys, List.map_cons, List.nodup_cons] at h
      obtain ⟨hnotin, hrest⟩ := h
      by_cases hk : p.1 = k
      · subst hk
        have : lastField rest p.1 = none := (lastField_eq_none_iff rest p.1).mpr hnotin
        simp [this, orFirst, getField]
      · simp [hk, orFirst_none_right, ih hrest, getField]

theorem keys_nil : keys ([] : List (String × α)) = [] := rfl

theorem keys_cons (p : String × α) (l : List (String × α)) :
    keys (p :: l) = p.1 :: keys l := rfl

theorem setKey_cons_self (k : String) (v₁ v : α) (rest : List (String × α)) :
    setKey ((k, v₁) :: rest) k v = (k, v) :: rest := by
  simp [setKey]

theorem setKey_cons_ne (k₁ k : String) (v₁ v : α) (rest : List (String × α))
    (h : k₁ ≠ k) : setKey ((k₁, v₁) :: rest) k v = (k₁, v₁) :: setKey rest k v := by
  simp [setKey, h]

theorem mem_keys_setKey (l : List (String × α)) (k : String) (v : α)
    (k' : String) : k' ∈ keys (setKey l k v) ↔ k' ∈ keys l ∨ k' = k := by
  induction l with
  | nil => simp [setKey, keys_cons, keys_nil]
  | cons p rest ih =>
      obtain ⟨k₁, v₁⟩ := p
      by_cases h : k₁ = k
      · subst h
        rw [setKey_cons_self, keys_cons, keys_cons]
        simp only [List.mem_cons]
        tauto
      · rw [setKey_cons_ne _ _ _ _ _ h, keys_cons, keys_cons]
        simp only [List.mem_cons, ih]
        tauto

theorem nodup_keys_setKey (l : List (String × α)) (k : String) (v : α)
    (h : (keys l).Nodup) : (keys (setKey l k v)).Nodup := by
  induction l with
  | nil => simp [setKey, keys_cons, keys_nil]
  | cons p rest ih =>
      obtain ⟨k₁, v₁⟩ := p
      rw [keys_cons, List.nodup_cons] at h
      obtain ⟨hnotin, hrest⟩ := h
      by_cases hk : k₁ = k
      · subst hk
        rw [setKey_cons_self, keys_cons, List.nodup_cons]
        exact ⟨hnotin, hrest⟩
      · rw [setKey_cons_ne _ _ _ _ _ hk, keys_cons, List.nodup_cons]
        refine ⟨?_, ih hrest⟩
        intro hmem
        rcases (mem_keys_setKey rest k v k₁).mp hmem with h1 | h1
        · exact hnotin h1
        · exact hk h1

theorem getField_removeKey_self (l : List (String × α)) (k : String) :
    getField (removeKey l k) k = none := by
  induction l with
  | nil => rfl
  | cons p rest ih =>
      by_cases h : p.1 = k
      · simp [removeKey, h] at ih ⊢
        simpa [removeKey] using ih
      · simp only [removeKey, List.filter_cons] at ih ⊢
        simp [h, getField, ih]

theorem lastField_removeKey_self (l : List (String × α)) (k : String) :
    lastField (removeKey l k) k = none := by
  rw [lastField_eq_none_iff]
  rw [← getField_eq_none_iff]
  exact getField_removeKey_self l k

theorem nodup_keys_removeKey (l : List (String × α)) (k : String)
    (h : (keys l).Nodup) : (keys (removeKey l k)).Nodup := by
  have hsub : List.Sublist (keys (removeKey l k)) (keys l) :=
    (List.filter_sublist l).map Prod.fst
  exact h.sublist hsub

theorem getField_objLit2 (a b : List (String × α)) (k : String) :
    getField (objLit [a, b]) k = orFirst (lastField b k) (lastField a k) := by
  show getField (spreadObj (spreadObj [] a) b) k = _
  rw [getField_spreadObj, getField_spreadObj]
  simp [getField, orFirst_none_right]

theorem getField_objLit3 (a b c : List (String × α)) (k : String) :
    getField (objLit [a, b, c]) k =
      orFirst (lastField c k) (orFirst (lastField b k) (lastField a k)) := by
  show getField (spreadObj (spreadObj (spreadObj [] a) b) c) k = _
  rw [getField_spreadObj, getField_spreadObj, getField_spreadObj]
  simp [getField, orFirst_none_right]

/-! ### Pipeline lemmas -/

theorem nodup_keys_collectResult (results : List (String × JVal))
    (config : JVal) (r : Option JVal) (h : (keys results).Nodup) :
    (keys (collectResult results config r)).Nodup := by
  unfold collectResult
  cases keyOf config with
  | none => exact h
  | some k =>
      cases r with
      | none => exact h
      | some v => exact nodup_keys_setKey results k v h

theorem nodup_keys_runConfigs (strategies : List (String × Strategy))
    (ctxObj : JVal) (cs : List JVal) :
    ∀ (init r : List (String × JVal)),
      runConfigs strategies ctxObj cs init = .ok r →
      (keys init).Nodup → (keys r).Nodup := by
  induction cs with
  | nil =>
      intro init r hrun hinit
      simp only [runConfigs] at hrun
      cases hrun
      exact hinit
  | cons c rest ih =>
      intro init r hrun hinit
      simp only [runConfigs] at hrun
      cases hex : executeFetchStrategy strategies c ctxObj with
      | error e => rw [hex] at hrun; cases hrun
      | ok res =>
          rw [hex] at hrun
          exact ih _ _ hrun (nodup_keys_collectResult init c res hinit)

theorem nodup_keys_fetchDataStrategies (strategies : List (String × Strategy))
    (fc ctxObj : JVal) (results : List (String × JVal))
    (h : fetchDataStrategies strategies fc ctxObj = .ok results) :
    (keys results).Nodup := by
  unfold fetchDataStrategies at h
  by_cases ht : truthy fc
  · rw [if_pos ht] at h
    cases fc with
    | arr configs =>
        exact nodup_keys_runConfigs strategies ctxObj configs [] results h (by simp [keys])
    | obj fields =>
        cases hex : executeFetchStrategy strategies (.obj fields) ctxObj with
        | error e => rw [hex] at h; cases h
        | ok res =>
            rw [hex] at h
            cases h
            exact nodup_keys_collectResult [] (.obj fields) res (by simp [keys])
    | null => cases h; simp [keys]
    | bool b => cases h; simp [keys]
    | num n => cases h; simp [keys]
    | str s => cases h; simp [keys]
  · rw [if_neg ht] at h
    cases h
    simp [keys]

theorem lastField_ctxRead_reserved (params query : JVal) :
    lastField (ctxRead params query) "fetch_data" = none := rfl

theorem lastField_ctxWrite_reserved (params query formData : JVal) :
    lastField (ctxWrite params query formData) "send_data" = none := rfl

theorem lastField_ctxRead (params query : JVal) (k : String) :
    lastField (ctxRead params query) k = getField (ctxRead params query) k := by
  apply lastField_eq_getField_of_nodup
  show (["params", "query"] : List String).Nodup
  decide

theorem lastField_eq_none_of_getField (l : List (String × α)) (k : String)
    (h : getField l k = none) : lastField l k = none := by
  rw [lastField_eq_none_iff]
  rw [getField_eq_none_iff] at h
  exact h

theorem fetchData_success_eq (tmpl : TemplateEnv)
    (strategies : List (String × Strategy)) (yc : String) (params query : JVal)
    (processed : String) (fs : List (String × JVal))
    (results : List (String × JVal))
    (hne : yc ≠ "")
    (hc : tmpl.compileRun yc (.obj (ctxRead params query)) = .ok processed)
    (hp : tmpl.parseYaml processed = .ok (.obj fs))
    (ht : truthyOpt (getField fs "fetch_data") = true)
    (hr : fetchDataStrategies strategies ((getField fs "fetch_data").getD .null)
        (.obj (ctxRead params query)) = .ok results) :
    fetchData tmpl strategies (some yc) params query =
      objLit [removeKey fs "fetch_data", results, ctxRead params query] := by
  have hbe : (yc == "") = false := by simp [hne]
  simp only [fetchData, hbe, Bool.false_eq_true, if_false, hc, hp, getMember, ht,
    if_true, hr]
  rfl

theorem fetchData_noreserved_eq (tmpl : TemplateEnv)
    (strategies : List (String × Strategy)) (yc : String) (params query : JVal)
    (processed : String) (fs : List (String × JVal))
    (hne : yc ≠ "")
    (hc : tmpl.compileRun yc (.obj (ctxRead params query)) = .ok processed)
    (hp : tmpl.parseYaml processed = .ok (.obj fs))
    (ht : getField fs "fetch_data" = none) :
    fetchData tmpl strategies (some yc) params query =
      objLit [fs, ctxRead params query] := by
  have hbe : (yc == "") = false := by simp [hne]
  simp only [fetchData, hbe, Bool.false_eq_true, if_false, hc, hp, getMember, ht,
    truthyOpt, if_false]
  rfl

theorem handlePost_success_eq (tmpl : TemplateEnv)
    (strategies : List (String × Strategy)) (yc : String)
    (params query formData : JVal) (processed : String)
    (fs : List (String × JVal)) (results : List (String × JVal))
    (hne : yc ≠ "")
    (hc : tmpl.compileRun yc (.obj (ctxWrite params query formData)) = .ok processed)
    (hp : tmpl.parseYaml processed = .ok (.obj fs))
    (ht : truthyOpt (getField fs "send_data") = true)
    (hr : sendDataStrategies strategies ((getField fs "send_data").getD .null)
        (.obj (ctxWrite params query formData)) = .ok results) :
    handlePost tmpl strategies (some yc) params query formData =
      objLit [removeKey fs "send_data", results, ctxWrite params query formData] := by
  have hbe : (yc == "") = false := by simp [hne]
  simp only [handlePost, hbe, Bool.false_eq_true, if_false, hc, hp, getMember, ht,
    if_true, hr]
  rfl

/-! ### Resolver lemmas -/

theorem searchPath_cons_eq (cwd : FS) (s : String) (rest curPath : List String)
    (params : List (String × String)) :
    searchPath cwd (s :: rest) curPath params =
      match readDirAt cwd curPath with
      | none => none
      | some entries =>
          firstSome (entryCandidate cwd s rest curPath params) entries := rfl

theorem firstSome_append_of_none (f : α → Option β) (pre : List α) (x : α)
    (post : List α) (hpre : ∀ e ∈ pre, f e = none) :
    firstSome f (pre ++ x :: post) =
      match f x with
      | some r => some r
      | none => firstSome f post := by
  induction pre with
  | nil => rfl
  | cons a rest ih =>
      have ha : f a = none := hpre a (by simp)
      simp only [List.cons_append, firstSome, ha]
      exact ih (fun e he => hpre e (by simp [he]))

/-! ### Claim theorems -/

/-- Claim C1 (status: code_bug).  The exact-match fast path joins the raw
request path under the page root with no sanitization, so a path whose
segments escape the root is *not* rejected: on a working directory with a
sibling `outside/index.html`, the request path `../outside` resolves to a
page match whose location normalizes outside `./pages` — it is the
sibling's content file.  The claim (and the repository's own traversal
test, which only passes because no `index.html` happens to exist at the
probed locations) expects such paths to be not-found. -/
theorem C1_dotdot_path_resolves_outside_root :
    findPageWithParams fsTraversal "../outside" =
      some ⟨[".", "pages", "..", "outside", "index.html"], []⟩ ∧
    withinPages [".", "pages", "..", "outside", "index.html"] = false ∧
    resolveFrom [".", "pages", "..", "outside", "index.html"] fsTraversal [] =
      some (.file "SECRET") :=
  ⟨rfl, rfl, rfl⟩

/-- Claim C5 (status: confirmed).  Whenever a content file exists at the
exact joined location `./pages/<path>/index.html`, the resolver returns
exactly that match with zero parameters — the parameterized search is
never consulted, so every parameterized match loses. -/
theorem C5_exact_match_wins (cwd : FS) (path : String)
    (h : fileAt cwd (exactSegs path) = true) :
    findPageWithParams cwd path = some ⟨exactSegs path, []⟩ := by
  have hs : statOk cwd (exactSegs path) = true := by
    unfold statOk
    unfold fileAt at h
    cases hr : resolveFrom (exactSegs path) cwd [] with
    | none => simp [hr] at h
    | some f => simp
  simp [findPageWithParams, hs]

/-- Witness for C5: a tree holding both the exact page `a` and a competing
parameter page `[id]`; the exact match wins with empty parameters. -/
theorem C5_exact_match_wins_witness :
    fileAt fsExact (exactSegs "a") = true ∧
    findPageWithParams fsExact "a" = some ⟨exactSegs "a", []⟩ :=
  ⟨rfl, C5_exact_match_wins fsExact "a" rfl⟩

/-- Claim C10 (status: confirmed).  Resolving `a/x/b` against
`pages/[id]/x/[id]/index.html` binds `id` to the deeper segment `b`: the
later bracket binding silently overwrites the earlier one (`{ ...params,
[paramName]: segment }` updates the key in place), as the general
overwrite law for parameter binding shows. -/
theorem C10_later_duplicate_param_wins :
    findPageWithParams fsDupParam "a/x/b" =
      some ⟨[".", "pages", "[id]", "x", "[id]", "index.html"], [("id", "b")]⟩ ∧
    (∀ (ps : List (String × String)) (k v : String),
      getField (setParam ps k v) k = some v) :=
  ⟨rfl, fun ps k v => getField_setKey_self ps k v⟩

/-- Counterexample to claim C4: with directory listing `[p]` before `a`
under `pages`, the request `a/b` (no exact match) returns the
bracket-parameter match `pages/[p]/b` binding `p := a`, even though the
literal subdirectory `a` also leads to a terminal success
(`pages/a/[q]/index.html`, binding `q := b`).  The literal-named
subdirectory does not always win: listing order decides. -/
theorem C4_listing_order_beats_literal :
    findPageWithParams fsBracketFirst "a/b" =
      some ⟨[".", "pages", "[p]", "b", "index.html"], [("p", "a")]⟩ ∧
    searchPath fsBracketFirst ["b"] [".", "pages", "a"] [] =
      some ⟨[".", "pages", "a", "[q]", "index.html"], [("q", "b")]⟩ :=
  ⟨rfl, rfl⟩

/-- Claim C4 as amended (status: corrected).  At each directory level the
entries are tried in directory-listing order, each one matching either
literally or as a bracket parameter; the first entry whose recursion
yields a terminal success wins.  In particular a literal-named
subdirectory that leads to a terminal success wins over every bracket
candidate *that comes after it in the listing* — i.e. whenever every
earlier entry contributes nothing. -/
theorem C4_first_listed_success_wins (cwd : FS) (s : String)
    (rest curPath : List String) (params : List (String × String))
    (entries pre post : List (String × FS)) (sub : FS) (r : PageMatch)
    (hdir : readDirAt cwd curPath = some entries)
    (hsplit : entries = pre ++ (s, sub) :: post)
    (hsub : isDir sub = true)
    (hpre : ∀ e ∈ pre, entryCandidate cwd s rest curPath params e = none)
    (hlit : searchPath cwd rest (curPath ++ [s]) params = some r) :
    searchPath cwd (s :: rest) curPath params = some r := by
  rw [searchPath_cons_eq, hdir]
  subst hsplit
  show firstSome (entryCandidate cwd s rest curPath params)
    (pre ++ (s, sub) :: post) = some r
  rw [firstSome_append_of_none _ pre _ post hpre]
  have hx : entryCandidate cwd s rest curPath params (s, sub) = some r := by
    unfold entryCandidate
    simp [hsub, hlit]
  rw [hx]

/-- Witness for the amended C4: with the literal directory listed first
(and a competing bracket directory after it), the literal's terminal
success is returned. -/
theorem C4_first_listed_success_wins_witness :
    searchPath fsLiteralFirst ["a", "b"] [".", "pages"] [] =
      some ⟨[".", "pages", "a", "b", "index.html"], []⟩ :=
  C4_first_listed_success_wins fsLiteralFirst "a" ["b"] [".", "pages"] []
    [("a", subLitA), ("[p]", subLitP)] [] [("[p]", subLitP)] subLitA
    ⟨[".", "pages", "a", "b", "index.html"], []⟩ rfl rfl rfl
    (fun e he => absurd he (List.not_mem_nil e)) rfl

/-- Counterexample to claim C3: the path `boom` resolves to a page, the
post-resolution step of loading the content body fails (`disk failure`),
yet the response is 404 "Page not found" — not a 500 carrying the failure
message.  `fetchPage` catches the read failure and degrades it to
not-found. -/
theorem C3_content_read_failure_gives_404 :
    findPageWithParams envReadFails.fs "boom" =
      some ⟨[".", "pages", "boom", "index.html"], []⟩ ∧
    envReadFails.readTextFile [".", "pages", "boom", "index.html"] =
      .error "disk failure" ∧
    renderPage envReadFails "boom" (.obj []) = ⟨404, .text "Page not found"⟩ :=
  ⟨rfl, rfl, rfl⟩

/-- Claim C3 as amended (status: corrected).  In the read flow, after the
path resolves: a failure loading the content body yields 404 "Page not
found" (not 500); an unexpected failure in either rendering step — the
body template or the layout template — yields a 500 response whose body
carries the failure message.  (A failure loading the read-config degrades
to rendering without it, and the pipeline step cannot raise.) -/
theorem C3_read_flow_failure_responses :
    (∀ (env : ServerEnv) (path : String) (query : JVal) (m : PageMatch)
       (msg : String),
      findPageWithParams env.fs path = some m →
      env.readTextFile m.pagePath = .error msg →
      renderPage env path query = ⟨404, .text "Page not found"⟩) ∧
    (∀ (env : ServerEnv) (path : String) (query : JVal) (pc : String)
       (yc : Option String) (ps : List (String × String)) (msg : String),
      fetchPage env path = .found pc yc ps →
      isPureHtml pc = false →
      env.renderBody pc (renderDataOf env yc ps query) = .error msg →
      renderPage env path query =
        ⟨500, .text ("Internal server error: " ++ msg)⟩) ∧
    (∀ (env : ServerEnv) (path : String) (query : JVal) (pc : String)
       (yc : Option String) (ps : List (String × String)) (rb msg : String),
      fetchPage env path = .found pc yc ps →
      isPureHtml pc = false →
      env.renderBody pc (renderDataOf env yc ps query) = .ok rb →
      env.renderLayout (objLit
        [[("title", JVal.str (titleOf path)), ("body", JVal.str rb)],
          renderDataOf env yc ps query]) = .error msg →
      renderPage env path query =
        ⟨500, .text ("Internal server error: " ++ msg)⟩) := by
  refine ⟨?_, ?_, ?_⟩
  · intro env path query m msg h1 h2
    have hf : fetchPage env path = .notFound := by
      simp only [fetchPage, h1, h2]
    simp [renderPage, hf]
  · intro env path query pc yc ps msg h1 h2 h3
    simp only [renderPage, h1, h2, Bool.false_eq_true, if_false, h3]
  · intro env path query pc yc ps rb msg h1 h2 h3 h4
    simp only [renderPage, h1, h2, Bool.false_eq_true, if_false, h3, h4]

/-- Witness for the amended C3: a read failure gives 404; a body-template
failure and a layout-template failure each give 500 with the message. -/
theorem C3_read_flow_failure_responses_witness :
    renderPage envReadFails "boom" (.obj [])
      = ⟨404, .text "Page not found"⟩ ∧
    renderPage envRenderFails "boom" (.obj [])
      = ⟨500, .text "Internal server error: template exploded"⟩ ∧
    renderPage envLayoutFails "boom" (.obj [])
      = ⟨500, .text "Internal server error: layout exploded"⟩ :=
  ⟨C3_read_flow_failure_responses.1 envReadFails "boom" (.obj [])
      ⟨[".", "pages", "boom", "index.html"], []⟩ "disk failure" rfl rfl,
   C3_read_flow_failure_responses.2.1 envRenderFails "boom" (.obj [])
      "<h1>hi</h1>" none [] "template exploded" rfl rfl rfl,
   C3_read_flow_failure_responses.2.2 envLayoutFails "boom" (.obj [])
      "<h1>hi</h1>" none [] "rendered" "layout exploded" rfl rfl rfl rfl⟩

/-- Counterexample to claim C2: on the `form` page (which resolves, and
whose `post.yaml` makes the permission check pass), a multipart request
whose body decoding rejects escapes the handler as an uncaught error —
no 200 JSON response is produced; the runtime turns the escaped rejection
into an error status. -/
theorem C2_malformed_multipart_escapes :
    (findPageWithParams envForm.fs "form").isSome = true ∧
    isPostAllowed envForm [".", "pages", "form", "index.html"] = true ∧
    handlePostRequest envForm "form" reqBadMultipart = .error "Missing boundary" ∧
    isJson200 (handlePostRequest envForm "form" reqBadMultipart) = false :=
  ⟨rfl, rfl, rfl, rfl⟩

/-- Claim C2 as amended (status: corrected).  For every POST whose path
resolves and whose permission check passes, *and whose body decoding does
not raise* (which excludes only a malformed multipart body — JSON and
URL-encoded malformedness, unknown or absent content types, an unloadable
or unparsable write-config, and failing operations are all fine), the
response is 200 with a JSON body. -/
theorem C2_post_returns_json200_after_permission (env : ServerEnv)
    (path : String) (req : HttpRequest) (m : PageMatch) (fd : JVal)
    (h1 : findPageWithParams env.fs path = some m)
    (h2 : isPostAllowed env m.pagePath = true)
    (h3 : parseFormData env req = .ok fd) :
    isJson200 (handlePostRequest env path req) = true := by
  unfold handlePostRequest
  rw [h1]
  simp only [h2, if_true, h3]
  rfl

/-- Witness for the amended C2: a JSON request with an unparsable body
against a page whose write-config never parses still gets 200 JSON. -/
theorem C2_post_returns_json200_after_permission_witness :
    isJson200 (handlePostRequest envForm "form" reqBadJson) = true :=
  C2_post_returns_json200_after_permission envForm "form" reqBadJson
    ⟨[".", "pages", "form", "index.html"], []⟩ (.obj []) rfl rfl rfl

/-- Claim C6 (status: confirmed).  For every successful pipeline run the
merged output has the lookup semantics of the left-to-right shallow merge
`(document minus the reserved key) ⊕ operation results ⊕ context`, with
later sources winning: every key reads as the first defined among context,
operation results, and the reserved-key-stripped document — so context
fields are never shadowed.  Without the reserved key the document merges
directly under the context.  And when two operations declare the same key,
the later-declared operation's collected result wins. -/
theorem C6_merge_semantics :
    (∀ (tmpl : TemplateEnv) (strategies : List (String × Strategy))
       (yc : String) (params query : JVal) (processed : String)
       (fs results : List (String × JVal)),
      yc ≠ "" →
      tmpl.compileRun yc (.obj (ctxRead params query)) = .ok processed →
      tmpl.parseYaml processed = .ok (.obj fs) →
      (keys fs).Nodup →
      truthyOpt (getField fs "fetch_data") = true →
      fetchDataStrategies strategies ((getField fs "fetch_data").getD .null)
        (.obj (ctxRead params query)) = .ok results →
      ∀ k, getField (fetchData tmpl strategies (some yc) params query) k =
        orFirst (getField (ctxRead params query) k)
          (orFirst (getField results k)
            (getField (removeKey fs "fetch_data") k))) ∧
    (∀ (tmpl : TemplateEnv) (strategies : List (String × Strategy))
       (yc : String) (params query : JVal) (processed : String)
       (fs : List (String × JVal)),
      yc ≠ "" →
      tmpl.compileRun yc (.obj (ctxRead params query)) = .ok processed →
      tmpl.parseYaml processed = .ok (.obj fs) →
      (keys fs).Nodup →
      getField fs "fetch_data" = none →
      ∀ k, getField (fetchData tmpl strategies (some yc) params query) k =
        orFirst (getField (ctxRead params query) k) (getField fs k)) ∧
    (∀ (strategies : List (String × Strategy)) (ctxObj : JVal)
       (cs : List JVal) (c : JVal) (init r : List (String × JVal))
       (k : String) (v : JVal),
      runConfigs strategies ctxObj (cs ++ [c]) init = .ok r →
      keyOf c = some k →
      executeFetchStrategy strategies c ctxObj = .ok (some v) →
      getField r k = some v) := by
  refine ⟨?_, ?_, ?_⟩
  · intro tmpl strategies yc params query processed fs results hne hc hp hnd ht hr k
    rw [fetchData_success_eq tmpl strategies yc params query processed fs results
      hne hc hp ht hr]
    rw [getField_objLit3, lastField_ctxRead]
    rw [lastField_eq_getField_of_nodup results k
      (nodup_keys_fetchDataStrategies strategies _ _ results hr)]
    rw [lastField_eq_getField_of_nodup (removeKey fs "fetch_data") k
      (nodup_keys_removeKey fs "fetch_data" hnd)]
  · intro tmpl strategies yc params query processed fs hne hc hp hnd ht k
    rw [fetchData_noreserved_eq tmpl strategies yc params query processed fs
      hne hc hp ht]
    rw [getField_objLit2, lastField_ctxRead]
    rw [lastField_eq_getField_of_nodup fs k hnd]
  · intro strategies ctxObj cs c init r k v hrun hkey hex
    induction cs generalizing init with
    | nil =>
        rw [List.nil_append] at hrun
        simp only [runConfigs, hex] at hrun
        rw [Except.ok.injEq] at hrun
        subst hrun
        simp only [collectResult, hkey]
        exact getField_setKey_self init k v
    | cons c' cs' ih =>
        rw [List.cons_append] at hrun
        simp only [runConfigs] at hrun
        cases hex' : executeFetchStrategy strategies c' ctxObj with
        | error e => rw [hex'] at hrun; cases hrun
        | ok res =>
            rw [hex'] at hrun
            exact ih _ hrun

/-- Witness for C6: on `fsMergeDoc`, the operation key `k` reads as the
later operation's value, the `params` key reads as the context value (the
document's `params: "shadowme"` is shadowed); on the reserved-key-free
`fsPlainDoc`, `params` again reads as the context; and the second of two
same-key operations wins in `runConfigs`. -/
theorem C6_merge_semantics_witness :
    (getField (fetchData tmplMergeDoc stratsMerge (some "x") (.str "P") (.str "Q")) "k"
      = orFirst (getField (ctxRead (.str "P") (.str "Q")) "k")
          (orFirst (getField [("k", JVal.str "v2")] "k")
            (getField (removeKey fsMergeDoc "fetch_data") "k"))) ∧
    (getField (fetchData tmplMergeDoc stratsMerge (some "x") (.str "P") (.str "Q")) "params"
      = orFirst (getField (ctxRead (.str "P") (.str "Q")) "params")
          (orFirst (getField [("k", JVal.str "v2")] "params")
            (getField (removeKey fsMergeDoc "fetch_data") "params"))) ∧
    (getField (fetchData tmplPlainDoc [] (some "x") (.str "P") (.str "Q")) "params"
      = orFirst (getField (ctxRead (.str "P") (.str "Q")) "params")
          (getField fsPlainDoc "params")) ∧
    (getField [("k", JVal.str "v2")] "k" = some (JVal.str "v2")) :=
  ⟨C6_merge_semantics.1 tmplMergeDoc stratsMerge "x" (.str "P") (.str "Q") "x"
      fsMergeDoc [("k", JVal.str "v2")] (by decide) rfl rfl (by decide) rfl rfl "k",
   C6_merge_semantics.1 tmplMergeDoc stratsMerge "x" (.str "P") (.str "Q") "x"
      fsMergeDoc [("k", JVal.str "v2")] (by decide) rfl rfl (by decide) rfl rfl "params",
   C6_merge_semantics.2.1 tmplPlainDoc [] "x" (.str "P") (.str "Q") "x"
      fsPlainDoc (by decide) rfl rfl (by decide) rfl "params",
   C6_merge_semantics.2.2 stratsMerge (.obj (ctxRead (.str "P") (.str "Q")))
      [cfgOp1] cfgOp2 [] [("k", JVal.str "v2")] "k" (JVal.str "v2") rfl rfl rfl⟩

/-- Counterexample to claim C7: a document *containing* the reserved key
with a falsy value — the real YAML text `fetch_data:` parses to
`{ fetch_data: null, ... }` — takes the no-reserved-key branch, which
spreads the whole parsed tree into the output: the reserved key appears in
the merged output with value `null`, on the read and the write side. -/
theorem C7_falsy_reserved_key_passes_through :
    getField (fetchData tmplFalsyReserved [] (some "fetch_data:")
      (.obj []) (.obj [])) "fetch_data" = some JVal.null ∧
    getField (handlePost tmplFalsyReserved [] (some "send_data:")
      (.obj []) (.obj []) (.obj [])) "send_data" = some JVal.null :=
  ⟨rfl, rfl⟩

/-- Claim C7 as amended (status: corrected).  When the reserved key's
value is truthy — so the key is actually consumed — and no collected
operation result re-declares the reserved key as its own key, the reserved
key never appears in the merged output, for both the read (`fetch_data`)
and the write (`send_data`) pipeline.  (A falsy-valued reserved key is
instead passed through to the output, and an operation whose `key` equals
the reserved key would reintroduce it.) -/
theorem C7_truthy_reserved_key_never_in_output :
    (∀ (tmpl : TemplateEnv) (strategies : List (String × Strategy))
       (yc : String) (params query : JVal) (processed : String)
       (fs results : List (String × JVal)),
      yc ≠ "" →
      tmpl.compileRun yc (.obj (ctxRead params query)) = .ok processed →
      tmpl.parseYaml processed = .ok (.obj fs) →
      truthyOpt (getField fs "fetch_data") = true →
      fetchDataStrategies strategies ((getField fs "fetch_data").getD .null)
        (.obj (ctxRead params query)) = .ok results →
      getField results "fetch_data" = none →
      getField (fetchData tmpl strategies (some yc) params query)
        "fetch_data" = none) ∧
    (∀ (tmpl : TemplateEnv) (strategies : List (String × Strategy))
       (yc : String) (params query formData : JVal) (processed : String)
       (fs results : List (String × JVal)),
      yc ≠ "" →
      tmpl.compileRun yc (.obj (ctxWrite params query formData)) = .ok processed →
      tmpl.parseYaml processed = .ok (.obj fs) →
      truthyOpt (getField fs "send_data") = true →
      sendDataStrategies strategies ((getField fs "send_data").getD .null)
        (.obj (ctxWrite params query formData)) = .ok results →
      getField results "send_data" = none →
      getField (handlePost tmpl strategies (some yc) params query formData)
        "send_data" = none) := by
  constructor
  · intro tmpl strategies yc params query processed fs results hne hc hp ht hr hres
    rw [fetchData_success_eq tmpl strategies yc params query processed fs results
      hne hc hp ht hr]
    rw [getField_objLit3, lastField_ctxRead_reserved,
      lastField_eq_none_of_getField results _ hres, lastField_removeKey_self]
    rfl
  · intro tmpl strategies yc params query formData processed fs results
      hne hc hp ht hr hres
    rw [handlePost_success_eq tmpl strategies yc params query formData processed
      fs results hne hc hp ht hr]
    rw [getField_objLit3, lastField_ctxWrite_reserved,
      lastField_eq_none_of_getField results _ hres, lastField_removeKey_self]
    rfl

/-- Witness for the amended C7: a consumed truthy `fetch_data` (resp.
`send_data`) never shows up in the output of a successful run. -/
theorem C7_truthy_reserved_key_never_in_output_witness :
    getField (fetchData tmplMergeDoc stratsMerge (some "x") (.str "P") (.str "Q"))
      "fetch_data" = none ∧
    getField (handlePost tmplSendDoc stratsMerge (some "x") (.str "P") (.str "Q")
      (.str "F")) "send_data" = none :=
  ⟨C7_truthy_reserved_key_never_in_output.1 tmplMergeDoc stratsMerge "x"
      (.str "P") (.str "Q") "x" fsMergeDoc [("k", JVal.str "v2")]
      (by decide) rfl rfl rfl rfl rfl,
   C7_truthy_reserved_key_never_in_output.2 tmplSendDoc stratsMerge "x"
      (.str "P") (.str "Q") (.str "F") "x" fsSendDoc [("k", JVal.str "v1")]
      (by decide) rfl rfl rfl rfl rfl⟩

/-- Claim C8 (status: confirmed).  The configuration pipeline is a total
function into merged maps (it has no failure channel in this model, every
internal throw being caught): an absent or empty document returns exactly
the context, a template-expansion failure returns exactly the context, and
a parse failure returns exactly the context — for both the read
(`fetch_data`) and the write (`send_data`) variant. -/
theorem C8_pipeline_never_raises_degrades_to_context :
    (∀ (tmpl : TemplateEnv) (strategies : List (String × Strategy))
       (params query : JVal),
      fetchData tmpl strategies none params query = ctxRead params query) ∧
    (∀ (tmpl : TemplateEnv) (strategies : List (String × Strategy))
       (params query : JVal),
      fetchData tmpl strategies (some "") params query = ctxRead params query) ∧
    (∀ (tmpl : TemplateEnv) (strategies : List (String × Strategy))
       (yc : String) (params query : JVal) (e : String),
      yc ≠ "" →
      tmpl.compileRun yc (.obj (ctxRead params query)) = .error e →
      fetchData tmpl strategies (some yc) params query = ctxRead params query) ∧
    (∀ (tmpl : TemplateEnv) (strategies : List (String × Strategy))
       (yc : String) (params query : JVal) (processed e : String),
      yc ≠ "" →
      tmpl.compileRun yc (.obj (ctxRead params query)) = .ok processed →
      tmpl.parseYaml processed = .error e →
      fetchData tmpl strategies (some yc) params query = ctxRead params query) ∧
    (∀ (tmpl : TemplateEnv) (strategies : List (String × Strategy))
       (params query formData : JVal),
      handlePost tmpl strategies none params query formData =
        ctxWrite params query formData) ∧
    (∀ (tmpl : TemplateEnv) (strategies : List (String × Strategy))
       (params query formData : JVal),
      handlePost tmpl strategies (some "") params query formData =
        ctxWrite params query formData) ∧
    (∀ (tmpl : TemplateEnv) (strategies : List (String × Strategy))
       (yc : String) (params query formData : JVal) (e : String),
      yc ≠ "" →
      tmpl.compileRun yc (.obj (ctxWrite params query formData)) = .error e →
      handlePost tmpl strategies (some yc) params query formData =
        ctxWrite params query formData) ∧
    (∀ (tmpl : TemplateEnv) (strategies : List (String × Strategy))
       (yc : String) (params query formData : JVal) (processed e : String),
      yc ≠ "" →
      tmpl.compileRun yc (.obj (ctxWrite params query formData)) = .ok processed →
      tmpl.parseYaml processed = .error e →
      handlePost tmpl strategies (some yc) params query formData =
        ctxWrite params query formData) := by
  refine ⟨fun _ _ _ _ => rfl, fun _ _ _ _ => rfl, ?_, ?_,
    fun _ _ _ _ _ => rfl, fun _ _ _ _ _ => rfl, ?_, ?_⟩
  · intro tmpl strategies yc params query e hne hc
    have hbe : (yc == "") = false := by simp [hne]
    simp only [fetchData, hbe, Bool.false_eq_true, if_false, hc]
  · intro tmpl strategies yc params query processed e hne hc hp
    have hbe : (yc == "") = false := by simp [hne]
    simp only [fetchData, hbe, Bool.false_eq_true, if_false, hc, hp]
  · intro tmpl strategies yc params query formData e hne hc
    have hbe : (yc == "") = false := by simp [hne]
    simp only [handlePost, hbe, Bool.false_eq_true, if_false, hc]
  · intro tmpl strategies yc params query formData processed e hne hc hp
    have hbe : (yc == "") = false := by simp [hne]
    simp only [handlePost, hbe, Bool.false_eq_true, if_false, hc, hp]

/-- Witness for C8: expansion and parse failures degrade to the exact
context on both pipeline variants. -/
theorem C8_pipeline_never_raises_degrades_to_context_witness :
    fetchData tmplExpandFails [] (some "doc") (.str "P") (.str "Q") =
      ctxRead (.str "P") (.str "Q") ∧
    fetchData tmplParseFails [] (some "doc") (.str "P") (.str "Q") =
      ctxRead (.str "P") (.str "Q") ∧
    handlePost tmplExpandFails [] (some "doc") (.str "P") (.str "Q") (.str "F") =
      ctxWrite (.str "P") (.str "Q") (.str "F") ∧
    handlePost tmplParseFails [] (some "doc") (.str "P") (.str "Q") (.str "F") =
      ctxWrite (.str "P") (.str "Q") (.str "F") :=
  ⟨C8_pipeline_never_raises_degrades_to_context.2.2.1 tmplExpandFails [] "doc"
      (.str "P") (.str "Q") "expansion failed" (by decide) rfl,
   C8_pipeline_never_raises_degrades_to_context.2.2.2.1 tmplParseFails [] "doc"
      (.str "P") (.str "Q") "doc" "parse failed" (by decide) rfl rfl,
   C8_pipeline_never_raises_degrades_to_context.2.2.2.2.2.2.1 tmplExpandFails []
      "doc" (.str "P") (.str "Q") (.str "F") "expansion failed" (by decide) rfl,
   C8_pipeline_never_raises_degrades_to_context.2.2.2.2.2.2.2 tmplParseFails []
      "doc" (.str "P") (.str "Q") (.str "F") "doc" "parse failed"
      (by decide) rfl rfl⟩

/-- Claim C9 (status: confirmed).  Dispatch and collection: an unknown (or
missing) operation type yields the no-result sentinel (`undefined`), a
throwing handler is caught and yields the same sentinel, and a handler
that intentionally returns nothing is treated identically — in every case
the dispatcher returns normally (`.ok`, nothing propagates) and the
collection step omits the key: a pair is collected only when `op.key` is
set and the result is defined, in which case it is stored under that key. -/
theorem C9_dispatch_and_collection :
    (∀ (strategies : List (String × Strategy)) (config ctxObj : JVal)
       (t? : Option String),
      typeFieldOf config = .ok t? →
      t?.bind (getField strategies) = none →
      executeFetchStrategy strategies config ctxObj = .ok none) ∧
    (∀ (strategies : List (String × Strategy)) (config ctxObj : JVal)
       (t? : Option String) (strat : Strategy) (msg : String),
      typeFieldOf config = .ok t? →
      t?.bind (getField strategies) = some strat →
      strat config ctxObj = .throws msg →
      executeFetchStrategy strategies config ctxObj = .ok none) ∧
    (∀ (strategies : List (String × Strategy)) (config ctxObj : JVal)
       (t? : Option String) (strat : Strategy),
      typeFieldOf config = .ok t? →
      t?.bind (getField strategies) = some strat →
      strat config ctxObj = .ret none →
      executeFetchStrategy strategies config ctxObj = .ok none) ∧
    (∀ (results : List (String × JVal)) (config : JVal) (r : Option JVal),
      keyOf config = none →
      collectResult results config r = results) ∧
    (∀ (results : List (String × JVal)) (config : JVal),
      collectResult results config none = results) ∧
    (∀ (results : List (String × JVal)) (config : JVal) (k : String) (v : JVal),
      keyOf config = some k →
      collectResult results config (some v) = setKey results k v) := by
  refine ⟨?_, ?_, ?_, ?_, ?_, ?_⟩
  · intro strategies config ctxObj t? htype hlook
    simp only [executeFetchStrategy, htype, hlook]
  · intro strategies config ctxObj t? strat msg htype hlook hthrow
    simp only [executeFetchStrategy, htype, hlook, hthrow]
  · intro strategies config ctxObj t? strat htype hlook hret
    simp only [executeFetchStrategy, htype, hlook, hret]
  · intro results config r hk
    cases r <;> simp [collectResult, hk]
  · intro results config
    cases hk : keyOf config <;> simp [collectResult, hk]
  · intro results config k v hk
    simp [collectResult, hk]

/-- Witness for C9: against `stratsMixed`, an unknown type, a throwing
handler and a nothing-returning handler each produce `.ok none`, and
collection behaves per key/result definedness. -/
theorem C9_dispatch_and_collection_witness :
    executeFetchStrategy stratsMixed (.obj [("type", .str "nope"), ("key", .str "k")])
      (.obj []) = .ok none ∧
    executeFetchStrategy stratsMixed (.obj [("type", .str "boom"), ("key", .str "k")])
      (.obj []) = .ok none ∧
    executeFetchStrategy stratsMixed (.obj [("type", .str "quiet"), ("key", .str "k")])
      (.obj []) = .ok none ∧
    collectResult [("a", JVal.str "0")] (.obj [("type", .str "val")])
      (some (.str "v")) = [("a", JVal.str "0")] ∧
    collectResult [("a", JVal.str "0")] (.obj [("type", .str "val"), ("key", .str "k")])
      none = [("a", JVal.str "0")] ∧
    collectResult [] (.obj [("type", .str "val"), ("key", .str "k")])
      (some (.str "v")) = setKey [] "k" (.str "v") :=
  ⟨C9_dispatch_and_collection.1 stratsMixed
      (.obj [("type", .str "nope"), ("key", .str "k")]) (.obj [])
      (some "nope") rfl rfl,
   C9_dispatch_and_collection.2.1 stratsMixed
      (.obj [("type", .str "boom"), ("key", .str "k")]) (.obj [])
      (some "boom") boomStrat "handler failed" rfl rfl rfl,
   C9_dispatch_and_collection.2.2.1 stratsMixed
      (.obj [("type", .str "quiet"), ("key", .str "k")]) (.obj [])
      (some "quiet") quietStrat rfl rfl rfl,
   C9_dispatch_and_collection.2.2.2.1 [("a", JVal.str "0")]
      (.obj [("type", .str "val")]) (some (.str "v")) rfl,
   C9_dispatch_and_collection.2.2.2.2.1 [("a", JVal.str "0")]
      (.obj [("type", .str "val"), ("key", .str "k")]),
   C9_dispatch_and_collection.2.2.2.2.2 [] (.obj [("type", .str "val"), ("key", .str "k")])
      "k" (.str "v") rfl⟩

end Vibb
